import Mathlib

/-!
# Verification of the true-static singleton registry

Shallow embedding of `src/singleton-registry.ts`: a registry mapping class
identities to registration records, with lazy dependency-injected
construction and circular-dependency detection via an initialization stack.

JS runtime values are modelled as follows:
* a function object (in particular a class constructor) is a `Ctor`,
  carrying an identity `cid`, its `name`, and the two observable facts the
  code's shape test reads: whether it has an own `prototype` object and
  whether `prototype.constructor === ` the function itself;
* every other argument value is an opaque literal `JSValue.prim`;
* constructed instances are identified by allocation order (`Nat` ids) and
  recorded in a construction log, which models both reference identity and
  the order in which constructors are invoked;
* thrown errors become values of `RegError`; `errorMessage` renders the
  message strings the code builds.

Recursion in `SingletonRegistry.get` is not structural (cycles are possible
in the registered dependency graph), so the embedding uses a fuel
parameter; `RegError.outOfFuel` marks fuel exhaustion, an outcome the real
code never produces for any terminating run and which appears in no claim.
-/

namespace TrueStatic

/-- A JS function object: identity, `name`, and the shape facts tested by
`typeof arg === 'function' && arg.prototype && arg.prototype.constructor === arg`. -/
structure Ctor where
  cid : Nat
  name : String
  ownProto : Bool
  protoCtorSelf : Bool
deriving DecidableEq, Repr

/-- A JS argument value: either a function object or a non-function literal. -/
inductive JSValue where
  | clsRef (c : Ctor)
  | prim (tag : String)
deriving DecidableEq, Repr

/-- The classification test in `register` (singleton-registry.ts line 64):
`typeof arg === 'function' && arg.prototype && arg.prototype.constructor === arg`. -/
def isClassShaped : JSValue → Bool
  | .clsRef c => c.ownProto && c.protoCtorSelf
  | .prim _ => false

/-- View a JS value as a function object, when it is one. -/
def asCtor : JSValue → Option Ctor
  | .clsRef c => some c
  | .prim _ => none

/-- A resolved constructor argument: a literal passed through, or a
reference to a constructed instance (by instance id). -/
inductive RVal where
  | lit (v : JSValue)
  | instRef (id : Nat)
deriving DecidableEq, Repr

/-- A registration record (`SingletonEntry` in the source). -/
structure Entry where
  ctor : Ctor
  args : List JSValue
  dependencies : List JSValue
  resolvedArgs : Option (List RVal)
  inst : Option Nat
deriving DecidableEq, Repr

/-- One constructor invocation: which class, the allocated instance id, and
the argument values passed. -/
structure ConsEvent where
  cls : Ctor
  instId : Nat
  argVals : List RVal
deriving DecidableEq, Repr

/-- The registry's mutable state: the key → record map (`registry`), the
`initializationStack` (a JS `Set`, insertion-ordered), plus the
construction log and next instance id that model object allocation. -/
structure RegState where
  registry : List (Ctor × Entry)
  stack : List Ctor
  log : List ConsEvent
  nextId : Nat
deriving DecidableEq, Repr

/-- The errors `SingletonRegistry` throws, in structured form, plus fuel
exhaustion of the embedding. -/
inductive RegError where
  | alreadyRegistered (name : String)
  | notRegistered (name : String)
  | missingDep (dep : String) (requester : String)
  | circular (cycleNames : List String)
  | outOfFuel
deriving DecidableEq, Repr

/-- The message strings the source code builds for each thrown error. -/
def errorMessage : RegError → String
  | .alreadyRegistered n => "Singleton " ++ n ++ " is already registered"
  | .notRegistered n => "Singleton " ++ n ++ " is not registered"
  | .missingDep d r => "Dependency " ++ d ++ " is not registered for singleton " ++ r
  | .circular ns => "Circular dependency detected: " ++ String.intercalate " -> " ns
  | .outOfFuel => "fuel exhausted"

/-- `Map.get` / `Map.has` on the registry's association list, by key identity. -/
def lookupReg : List (Ctor × Entry) → Ctor → Option Entry
  | [], _ => none
  | (k', e) :: rest, k => if k' = k then some e else lookupReg rest k

/-- In-place update of one record, as JS object mutation through the map. -/
def setEntry (m : List (Ctor × Entry)) (k : Ctor) (f : Entry → Entry) :
    List (Ctor × Entry) :=
  m.map (fun p => if p.1 = k then (p.1, f p.2) else p)

/-- `initializationStack.add(k)`: a JS `Set` keeps the original position of
an already-present element and appends a new one. -/
def pushStack (s : RegState) (k : Ctor) : RegState :=
  if k ∈ s.stack then s else { s with stack := s.stack ++ [k] }

/-- `initializationStack.delete(k)`. -/
def popStack (s : RegState) (k : Ctor) : RegState :=
  { s with stack := s.stack.filter (fun x => x ≠ k) }

/-- `entry.resolvedArgs = vals` (the code mutates the array by `push`;
modelled as rewriting the field after each push). -/
def setResolved (s : RegState) (k : Ctor) (vals : List RVal) : RegState :=
  { s with registry := setEntry s.registry k (fun e => { e with resolvedArgs := some vals }) }

/-- `entry.instance = new entry.constructor(...vals)`: allocate a fresh
instance id, append the invocation to the log, cache the instance. -/
def construct (s : RegState) (k : Ctor) (vals : List RVal) : Nat × RegState :=
  (s.nextId,
    { registry := setEntry s.registry k (fun e => { e with inst := some s.nextId })
      stack := s.stack
      log := s.log ++ [⟨k, s.nextId, vals⟩]
      nextId := s.nextId + 1 })

/-- The classification loop of `register` (lines 60-70): walks the
arguments, pushing class-shaped ones into `dependencies` and every
argument into `processedArgs`. Returns `(dependencies, processedArgs)`. -/
def classify : List JSValue → List JSValue × List JSValue
  | [] => ([], [])
  | a :: rest =>
    let (deps, proc) := classify rest
    if isClassShaped a then (a :: deps, a :: proc) else (deps, a :: proc)

/-- `SingletonRegistry.register` (lines 52-77). -/
def register (k : Ctor) (args : List JSValue) (s : RegState) :
    Except RegError Unit × RegState :=
  if (lookupReg s.registry k).isSome then
    (.error (.alreadyRegistered k.name), s)
  else
    let (deps, proc) := classify args
    (.ok (), { s with registry := s.registry ++ [(k, ⟨k, proc, deps, none, none⟩)] })

/-- The argument-resolution loop of `get` (lines 118-127), parameterised by
the recursive call `g`. Each step pushes the resolved value onto the
record's `resolvedArgs` before moving on, as the code's `push` does. -/
def resolveLoop (g : Ctor → RegState → Except RegError Nat × RegState)
    (k : Ctor) (deps : List JSValue) :
    List JSValue → List RVal → RegState → Except RegError (List RVal) × RegState
  | [], acc, s => (.ok acc, s)
  | a :: rest, acc, s =>
    if a ∈ deps then
      match asCtor a with
      | some c =>
        if (lookupReg s.registry c).isSome then
          match g c s with
          | (.ok i, s') =>
            resolveLoop g k deps rest (acc ++ [RVal.instRef i])
              (setResolved s' k (acc ++ [RVal.instRef i]))
          | (.error err, s') => (.error err, s')
        else
          (.error (.missingDep c.name k.name), s)
      | none =>
        resolveLoop g k deps rest (acc ++ [RVal.lit a])
          (setResolved s k (acc ++ [RVal.lit a]))
    else
      resolveLoop g k deps rest (acc ++ [RVal.lit a])
        (setResolved s k (acc ++ [RVal.lit a]))

/-- `SingletonRegistry.get` (lines 93-135), with fuel for the recursion.
The state threaded out of an error result models the mutations that
survive a thrown error; the `finally` pop is applied on both exits. -/
def getFuel : Nat → Ctor → RegState → Except RegError Nat × RegState
  | 0, _, s => (.error .outOfFuel, s)
  | fuel + 1, k, s =>
    match lookupReg s.registry k with
    | none => (.error (.notRegistered k.name), s)
    | some e =>
      match e.inst with
      | some i => (.ok i, s)
      | none =>
        if k ∈ s.stack then
          (.error (.circular (((s.stack.dropWhile (fun x => x ≠ k)) ++ [k]).map Ctor.name)), s)
        else
          match e.resolvedArgs with
          | some vals =>
            match construct (pushStack s k) k vals with
            | (i, s₃) => (.ok i, popStack s₃ k)
          | none =>
            match resolveLoop (getFuel fuel) k e.dependencies e.args []
                (setResolved (pushStack s k) k []) with
            | (.ok vals, s') =>
              match construct s' k vals with
              | (i, s₃) => (.ok i, popStack s₃ k)
            | (.error err, s') => (.error err, popStack s' k)

/-- `SingletonRegistry.clear` (lines 149-152): drops every record and
empties the initialization stack. The allocation log is ghost state and is
untouched. -/
def clearReg (s : RegState) : RegState :=
  { s with registry := [], stack := [] }

/-- `SingletonRegistry.isRegistered` (lines 168-170). -/
def isRegistered (s : RegState) (k : Ctor) : Bool :=
  (lookupReg s.registry k).isSome

/-- The empty registry: fresh module state. -/
def emptyState : RegState := ⟨[], [], [], 0⟩

/-! ## The global-access layer -/

/-- `globalThis.__singletonConstructorMap` together with the core registry:
the whole observable state of the global-access pattern. -/
structure World where
  rs : RegState
  cmap : List (String × Ctor)
deriving DecidableEq, Repr

/-- `Map.get` on the name → constructor map. -/
def lookupName : List (String × Ctor) → String → Option Ctor
  | [], _ => none
  | (n', c) :: rest, n => if n' = n then some c else lookupName rest n

/-- `Map.set` on the name → constructor map: update in place, else append. -/
def setName : List (String × Ctor) → String → Ctor → List (String × Ctor)
  | [], n, k => [(n, k)]
  | (n', c) :: rest, n, k =>
    if n' = n then (n, k) :: rest else (n', c) :: setName rest n k

/-- `registerGlobalSingleton` (lines 304-318): registers with the core
registry, then maps the name — unless registration threw, in which case
the name map is untouched. -/
def registerGlobalSingleton (name : String) (k : Ctor) (args : List JSValue)
    (w : World) : Except RegError Unit × World :=
  match register k args w.rs with
  | (.ok _, rs') => (.ok (), ⟨rs', setName w.cmap name k⟩)
  | (.error err, rs') => (.error err, { w with rs := rs' })

/-- `clear` seen at the world level: only the core registry is reset; the
name → constructor map on `globalThis` is not. -/
def clearWorld (w : World) : World :=
  { w with rs := clearReg w.rs }

/-- The proxy `get` trap (lines 225-238): a mapped name delegates to
`SingletonRegistry.get` (propagating its error), an unmapped name yields
`undefined` (`none`). -/
def proxyGet (fuel : Nat) (w : World) (prop : String) :
    Option (Except RegError Nat) × World :=
  match lookupName w.cmap prop with
  | some k =>
    let (r, rs') := getFuel fuel k w.rs
    (some r, { w with rs := rs' })
  | none => (none, w)

/-- Number of times the constructor of class `c` has been invoked, read off
the construction log. -/
def logCount (c : Ctor) (l : List ConsEvent) : Nat :=
  (l.filter (fun ev => ev.cls = c)).length

/-! ## Concrete classes used by the test scenarios and witnesses -/

/-- Concrete class, as in the repository test suite. -/
def svcCtor : Ctor := ⟨0, "Service", true, true⟩

/-- Concrete class that is never registered. -/
def misCtor : Ctor := ⟨1, "Missing", true, true⟩

/-- Concrete class with no constructor arguments. -/
def noArgsCtor : Ctor := ⟨2, "NoArgsService", true, true⟩

/-- Concrete class used as a literal string consumer. -/
def testCtor : Ctor := ⟨3, "TestService", true, true⟩

/-- Concrete mutually dependent class A. -/
def circACtor : Ctor := ⟨4, "CircularA", true, true⟩

/-- Concrete mutually dependent class B. -/
def circBCtor : Ctor := ⟨5, "CircularB", true, true⟩

/-- Concrete chain classes. -/
def chainACtor : Ctor := ⟨6, "A", true, true⟩

/-- Concrete chain class B. -/
def chainBCtor : Ctor := ⟨7, "B", true, true⟩

/-- Concrete chain class C. -/
def chainCCtor : Ctor := ⟨8, "C", true, true⟩

/-- Registry holding `Service` registered with a dependency on the
never-registered `Missing` (the failing input of claim C1). -/
def c1Start : RegState := (register svcCtor [.clsRef misCtor] emptyState).2

/-- State after the first (failing) `get(Service)` call on `c1Start`. -/
def c1After : RegState := (getFuel 2 svcCtor c1Start).2

/-- Concrete self-referencing class. -/
def selfCtor : Ctor := ⟨9, "SelfReferencing", true, true⟩

/-- Registry holding only the no-argument class. -/
def noArgState : RegState := (register noArgsCtor [] emptyState).2

/-- A state caught mid-resolution: `Service` is on the initialization
stack with no cached instance (used to exercise the re-entry rule). -/
def midState : RegState :=
  ⟨[(svcCtor, ⟨svcCtor, [], [], none, none⟩)], [svcCtor], [], 0⟩

/-- The empty world for the global-access layer. -/
def emptyWorld : World := ⟨emptyState, []⟩

/-- A function value that fails the class-shape test (an arrow function:
no own `prototype` object). -/
def arrowFn : JSValue := .clsRef ⟨10, "arrow", false, true⟩

/-- A function value whose `prototype.constructor` is not itself. -/
def detachedFn : JSValue := .clsRef ⟨11, "detached", true, false⟩

end TrueStatic

namespace TrueStatic

/-! ## Small rewriting lemmas about the state operations -/

@[simp] theorem setResolved_stack (s : RegState) (k : Ctor) (vals : List RVal) :
    (setResolved s k vals).stack = s.stack := rfl

@[simp] theorem setResolved_log (s : RegState) (k : Ctor) (vals : List RVal) :
    (setResolved s k vals).log = s.log := rfl

@[simp] theorem popStack_registry (s : RegState) (k : Ctor) :
    (popStack s k).registry = s.registry := rfl

@[simp] theorem popStack_log (s : RegState) (k : Ctor) :
    (popStack s k).log = s.log := rfl

@[simp] theorem pushStack_registry (s : RegState) (k : Ctor) :
    (pushStack s k).registry = s.registry := by
  unfold pushStack; split <;> rfl

@[simp] theorem pushStack_log (s : RegState) (k : Ctor) :
    (pushStack s k).log = s.log := by
  unfold pushStack; split <;> rfl

@[simp] theorem construct_log (s : RegState) (k : Ctor) (vals : List RVal) :
    ((construct s k vals).2).log = s.log ++ [⟨k, s.nextId, vals⟩] := rfl

@[simp] theorem construct_stack (s : RegState) (k : Ctor) (vals : List RVal) :
    ((construct s k vals).2).stack = s.stack := rfl

theorem pushStack_stack_of_not_mem {s : RegState} {k : Ctor} (h : k ∉ s.stack) :
    (pushStack s k).stack = s.stack ++ [k] := by
  unfold pushStack; rw [if_neg h]

theorem filter_ne_of_not_mem {l : List Ctor} {k : Ctor} (h : k ∉ l) :
    l.filter (fun x => x ≠ k) = l := by
  apply List.filter_eq_self.mpr
  intro a ha
  have hak : a ≠ k := fun hk => h (hk ▸ ha)
  simp [hak]

theorem popStack_of_pushed {s : RegState} {k : Ctor} (h : k ∉ s.stack) :
    (popStack (pushStack s k) k).stack = s.stack := by
  unfold popStack
  rw [pushStack_stack_of_not_mem h, List.filter_append, filter_ne_of_not_mem h]
  simp

theorem popStack_stack_restore {s₃ s : RegState} {k : Ctor}
    (h : s₃.stack = (pushStack s k).stack) (hk : k ∉ s.stack) :
    (popStack s₃ k).stack = s.stack := by
  unfold popStack
  simp only [h, pushStack_stack_of_not_mem hk, List.filter_append,
    filter_ne_of_not_mem hk]
  simp

/-! ## The initialization stack is restored on every exit path -/

theorem resolveLoop_stack (g : Ctor → RegState → Except RegError Nat × RegState)
    (hg : ∀ c s, ((g c s).2).stack = s.stack) (k : Ctor) (deps : List JSValue) :
    ∀ (args : List JSValue) (acc : List RVal) (s : RegState),
      ((resolveLoop g k deps args acc s).2).stack = s.stack := by
  intro args
  induction args with
  | nil => intro acc s; rfl
  | cons a rest ih =>
    intro acc s
    unfold resolveLoop
    split
    · split
      · next c hac =>
        split
        · split
          · next i s' heq =>
            rw [ih, setResolved_stack]
            have h2 := hg c s
            rw [heq] at h2
            exact h2
          · next err s' heq =>
            have h2 := hg c s
            rw [heq] at h2
            exact h2
        · rfl
      · rw [ih, setResolved_stack]
    · rw [ih, setResolved_stack]

theorem getFuel_stack : ∀ (fuel : Nat) (k : Ctor) (s : RegState),
    ((getFuel fuel k s).2).stack = s.stack := by
  intro fuel
  induction fuel with
  | zero => intro k s; rfl
  | succ n ih =>
    intro k s
    unfold getFuel
    split
    · rfl
    · next e he =>
      split
      · rfl
      · split
        · rfl
        · next hk =>
          split
          · next vals hr =>
            split
            next i s₃ heq =>
              have h3 := congrArg (fun p : Nat × RegState => p.2.stack) heq
              simp only [construct_stack] at h3
              exact popStack_stack_restore h3.symm hk
          · next hr =>
            split
            · next vals s' heq =>
              split
              next i s₃ heq2 =>
                have h2 := resolveLoop_stack (getFuel n) ih k e.dependencies e.args []
                  (setResolved (pushStack s k) k [])
                rw [heq] at h2
                simp only [setResolved_stack] at h2
                have h3 := congrArg (fun p : Nat × RegState => p.2.stack) heq2
                simp only [construct_stack] at h3
                exact popStack_stack_restore (h3.symm.trans h2) hk
            · next err s' heq =>
              have h2 := resolveLoop_stack (getFuel n) ih k e.dependencies e.args []
                (setResolved (pushStack s k) k [])
              rw [heq] at h2
              simp only [setResolved_stack] at h2
              exact popStack_stack_restore h2 hk

end TrueStatic

namespace TrueStatic

/-! ## Claim theorems: first batch -/

/-- C1 (code bug): resolution is NOT all-or-nothing. On the failing input —
`Service` registered with a dependency on the never-registered `Missing` —
the first `get(Service)` throws `MissingDependencyError` but leaves the
record's `resolvedArgs` populated with the partial (empty) array, so a
second `get(Service)` skips dependency resolution entirely and successfully
constructs `Service` with no arguments, mutating the registry. The claim
(and spec sections 7 and 8) say the failing record must be left with
neither `instance` nor `resolvedArguments` populated and that repeated
failed `get` calls never mutate state. -/
theorem c1_failed_resolution_leaves_partial_record :
    (getFuel 2 svcCtor c1Start).1 = .error (.missingDep "Missing" "Service")
    ∧ (lookupReg c1Start.registry svcCtor).map Entry.resolvedArgs = some none
    ∧ (lookupReg c1After.registry svcCtor).map Entry.resolvedArgs = some (some [])
    ∧ c1After ≠ c1Start
    ∧ (getFuel 2 svcCtor c1After).1 = .ok 0
    ∧ (getFuel 2 svcCtor c1After).2.log = [⟨svcCtor, 0, []⟩] := by
  refine ⟨rfl, rfl, rfl, ?_, rfl, rfl⟩
  decide

/-- C2: a top-level `get` that begins with an empty Resolution Stack leaves
it empty again on return, for every key, every registry state and every
outcome (success or any error) — the `finally` pop fires on every exit
path. -/
theorem c2_stack_empty_after_get (fuel : Nat) (k : Ctor) (s : RegState)
    (h : s.stack = []) : ((getFuel fuel k s).2).stack = [] := by
  rw [getFuel_stack, h]

/-- Witness for C2: a successful `get`, a not-registered failure, and a
missing-dependency failure all leave the stack empty. -/
theorem c2_stack_empty_after_get_witness :
    noArgState.stack = [] ∧ ((getFuel 1 noArgsCtor noArgState).2).stack = []
    ∧ ((getFuel 1 misCtor emptyState).2).stack = []
    ∧ ((getFuel 2 svcCtor c1Start).2).stack = [] :=
  ⟨rfl, c2_stack_empty_after_get 1 noArgsCtor noArgState rfl,
    c2_stack_empty_after_get 1 misCtor emptyState rfl,
    c2_stack_empty_after_get 2 svcCtor c1Start rfl⟩

/-- C7: registering an already-registered key always fails with
`AlreadyRegisteredError` naming the key, and the whole state — in
particular the existing registration record — is returned unchanged,
whatever the new arguments are. -/
theorem c7_duplicate_register_rejected (k : Ctor) (args : List JSValue)
    (s : RegState) (h : isRegistered s k = true) :
    register k args s = (.error (.alreadyRegistered k.name), s) := by
  unfold isRegistered at h
  unfold register
  rw [if_pos h]

/-- Witness for C7: re-registering `Service` with different arguments fails
and leaves the state intact. -/
theorem c7_duplicate_register_rejected_witness :
    register svcCtor [.prim "other"] c1Start
      = (.error (.alreadyRegistered "Service"), c1Start) :=
  c7_duplicate_register_rejected svcCtor [.prim "other"] c1Start rfl

/-- C9: a property read on the global proxy for a name with no mapping in
the constructor map yields `undefined` (`none`), never an error, and is
state-neutral. -/
theorem c9_unmapped_name_yields_undefined (fuel : Nat) (w : World)
    (prop : String) (h : lookupName w.cmap prop = none) :
    proxyGet fuel w prop = (none, w) := by
  unfold proxyGet
  rw [h]

/-- Witness for C9: reading an unmapped name on the empty world. -/
theorem c9_unmapped_name_yields_undefined_witness :
    proxyGet 1 emptyWorld "ConfigService" = (none, emptyWorld) :=
  c9_unmapped_name_yields_undefined 1 emptyWorld "ConfigService" rfl

end TrueStatic

namespace TrueStatic

/-! ## Registration: classification of arguments -/

theorem classify_eq (args : List JSValue) :
    classify args = (args.filter isClassShaped, args) := by
  induction args with
  | nil => rfl
  | cons a rest ih =>
    unfold classify
    rw [ih]
    by_cases h : isClassShaped a = true
    · simp [List.filter_cons, h]
    · simp [List.filter_cons, h]

theorem lookupReg_eq_none_of_not_registered {s : RegState} {k : Ctor}
    (h : isRegistered s k = false) : lookupReg s.registry k = none := by
  unfold isRegistered at h
  cases hl : lookupReg s.registry k
  · rfl
  · rw [hl] at h
    simp at h

theorem lookupReg_append_of_none {m : List (Ctor × Entry)} {k : Ctor}
    (h : lookupReg m k = none) (e : Entry) :
    lookupReg (m ++ [(k, e)]) k = some e := by
  induction m with
  | nil => simp [lookupReg]
  | cons p rest ih =>
    obtain ⟨k', e'⟩ := p
    simp only [List.cons_append, lookupReg] at h ⊢
    by_cases hk : k' = k
    · rw [if_pos hk] at h
      exact absurd h (by simp)
    · rw [if_neg hk] at h ⊢
      exact ih h

/-- C8: `register` classifies each argument positionally — it is recorded
as a dependency exactly when it is class-shaped (a function with its own
prototype whose prototype.constructor is itself), every other argument
passes through as a literal, `rawArguments` keep the original order, and
dependency duplicates are preserved positionally (`dependencies` is the
positional filter of the arguments by the shape test). -/
theorem c8_argument_classification (k : Ctor) (args : List JSValue)
    (s : RegState) (h : isRegistered s k = false) :
    (register k args s).1 = .ok ()
    ∧ lookupReg ((register k args s).2).registry k
        = some ⟨k, args, args.filter isClassShaped, none, none⟩
    ∧ (∀ v : JSValue, isClassShaped v = true
        ↔ ∃ c : Ctor, v = .clsRef c ∧ c.ownProto = true ∧ c.protoCtorSelf = true) := by
  have hn := lookupReg_eq_none_of_not_registered h
  refine ⟨?_, ?_, ?_⟩
  · simp [register, hn]
  · simp only [register, hn, Option.isSome_none, Bool.false_eq_true, if_false,
      classify_eq]
    exact lookupReg_append_of_none hn _
  · intro v
    cases v with
    | clsRef c => simp [isClassShaped, Bool.and_eq_true]
    | prim t => simp [isClassShaped]

/-- Witness for C8: registering with a class-shaped argument, a duplicate
of it, a string literal, and two function values that fail the shape test;
only the class-shaped ones (both copies, in position) become dependencies. -/
theorem c8_argument_classification_witness :
    (register testCtor [.clsRef misCtor, .prim "x", arrowFn, .clsRef misCtor, detachedFn]
        emptyState).1 = .ok ()
    ∧ lookupReg ((register testCtor
        [.clsRef misCtor, .prim "x", arrowFn, .clsRef misCtor, detachedFn]
        emptyState).2).registry testCtor
      = some ⟨testCtor, [.clsRef misCtor, .prim "x", arrowFn, .clsRef misCtor, detachedFn],
          [.clsRef misCtor, .clsRef misCtor], none, none⟩ := by
  have h := c8_argument_classification testCtor
    [.clsRef misCtor, .prim "x", arrowFn, .clsRef misCtor, detachedFn] emptyState rfl
  exact ⟨h.1, by rw [h.2.1]; decide⟩

end TrueStatic

namespace TrueStatic

/-! ## Case-split rewriting lemmas used to evaluate scenarios -/

@[simp] theorem setEntry_nil (k : Ctor) (f : Entry → Entry) :
    setEntry [] k f = [] := rfl

@[simp] theorem setEntry_cons_self (k : Ctor) (e : Entry)
    (rest : List (Ctor × Entry)) (f : Entry → Entry) :
    setEntry ((k, e) :: rest) k f = (k, f e) :: setEntry rest k f := by
  simp [setEntry]

@[simp] theorem setEntry_cons_ne {k' k : Ctor} (e : Entry)
    (rest : List (Ctor × Entry)) (f : Entry → Entry) (h : k' ≠ k) :
    setEntry ((k', e) :: rest) k f = (k', e) :: setEntry rest k f := by
  simp [setEntry, h]

@[simp] theorem lookupReg_nil (k : Ctor) : lookupReg [] k = none := rfl

@[simp] theorem lookupReg_cons_self (k : Ctor) (e : Entry)
    (rest : List (Ctor × Entry)) : lookupReg ((k, e) :: rest) k = some e := by
  simp [lookupReg]

@[simp] theorem lookupReg_cons_ne {k' k : Ctor} (e : Entry)
    (rest : List (Ctor × Entry)) (h : k' ≠ k) :
    lookupReg ((k', e) :: rest) k = lookupReg rest k := by
  simp [lookupReg, h]

/-! ## Claim theorems: cycle detection, construction order, missing deps -/

/-- C4: when `get` re-enters a key with no cached instance that is already
on the Resolution Stack, it fails with `CircularDependencyError` whose
cycle is the stack's ordered subsequence from the first occurrence of that
key followed by the key again, in insertion order (first conjunct, the
general rule); mutually dependent classes a and b give the cycle
a -> b -> a from `get(a)` (second conjunct), and a self-dependent class s
gives s -> s (third conjunct). -/
theorem c4_circular_cycle_message :
    (∀ (fuel : Nat) (k : Ctor) (s : RegState) (e : Entry),
      lookupReg s.registry k = some e → e.inst = none → k ∈ s.stack →
      getFuel (fuel + 1) k s
        = (.error (.circular (((s.stack.dropWhile (fun x => x ≠ k)) ++ [k]).map Ctor.name)), s))
    ∧ (∀ a b : Ctor, a ≠ b →
      isClassShaped (.clsRef a) = true → isClassShaped (.clsRef b) = true →
      (getFuel 3 a ((register b [.clsRef a] ((register a [.clsRef b] emptyState).2)).2)).1
        = .error (.circular [a.name, b.name, a.name]))
    ∧ (∀ s : Ctor, isClassShaped (.clsRef s) = true →
      (getFuel 2 s ((register s [.clsRef s] emptyState).2)).1
        = .error (.circular [s.name, s.name])) := by
  refine ⟨?_, ?_, ?_⟩
  · intro fuel k s e he hi hk
    unfold getFuel
    rw [he]
    dsimp only
    rw [hi]
    dsimp only
    rw [if_pos hk]
  · intro a b hab ha hb
    have hstep : (register b [.clsRef a] ((register a [.clsRef b] emptyState).2)).2
        = ⟨[(a, ⟨a, [.clsRef b], [.clsRef b], none, none⟩),
            (b, ⟨b, [.clsRef a], [.clsRef a], none, none⟩)], [], [], 0⟩ := by
      simp [register, classify_eq, emptyState, List.filter_cons, ha, hb, hab,
        Ne.symm hab]
    rw [hstep]
    simp [getFuel, resolveLoop, setResolved, pushStack, popStack, asCtor,
      List.dropWhile, hab, Ne.symm hab]
  · intro s hs
    have hstep : (register s [.clsRef s] emptyState).2
        = ⟨[(s, ⟨s, [.clsRef s], [.clsRef s], none, none⟩)], [], [], 0⟩ := by
      simp [register, classify_eq, emptyState, List.filter_cons, hs]
    rw [hstep]
    simp [getFuel, resolveLoop, setResolved, pushStack, popStack, asCtor,
      List.dropWhile]

/-- Witness for C4: the general rule applied to a state caught
mid-resolution of `Service`, and the two scenarios at the concrete classes
of the repository test suite. -/
theorem c4_circular_cycle_message_witness :
    getFuel 1 svcCtor midState
      = (.error (.circular (((midState.stack.dropWhile (fun x => x ≠ svcCtor))
          ++ [svcCtor]).map Ctor.name)), midState)
    ∧ (getFuel 3 circACtor ((register circBCtor [.clsRef circACtor]
        ((register circACtor [.clsRef circBCtor] emptyState).2)).2)).1
      = .error (.circular ["CircularA", "CircularB", "CircularA"])
    ∧ (getFuel 2 selfCtor ((register selfCtor [.clsRef selfCtor] emptyState).2)).1
      = .error (.circular ["SelfReferencing", "SelfReferencing"]) :=
  ⟨c4_circular_cycle_message.1 0 svcCtor midState ⟨svcCtor, [], [], none, none⟩
      rfl rfl (by decide),
    c4_circular_cycle_message.2.1 circACtor circBCtor (by decide) rfl rfl,
    c4_circular_cycle_message.2.2 selfCtor rfl⟩

/-- C5: for a dependency chain a -> b -> c (a depends on b, b on c), the
first `get(a)` invokes the constructors of c, then b, then a, in that
order and exactly once each (the construction log is exactly [c, b, a]);
for a with two dependencies b and c, resolution is left-to-right, giving
log [b, c, a] — depth-first, deterministic, bottom-up. -/
theorem c5_construction_order :
    (∀ a b c : Ctor, a ≠ b → a ≠ c → b ≠ c →
      isClassShaped (.clsRef b) = true → isClassShaped (.clsRef c) = true →
      ((getFuel 3 a ((register a [.clsRef b] ((register b [.clsRef c]
          ((register c [] emptyState).2)).2)).2)).2.log.map ConsEvent.cls = [c, b, a])
      ∧ (getFuel 3 a ((register a [.clsRef b] ((register b [.clsRef c]
          ((register c [] emptyState).2)).2)).2)).1 = .ok 2)
    ∧ (∀ a b c : Ctor, a ≠ b → a ≠ c → b ≠ c →
      isClassShaped (.clsRef b) = true → isClassShaped (.clsRef c) = true →
      ((getFuel 2 a ((register a [.clsRef b, .clsRef c] ((register c []
          ((register b [] emptyState).2)).2)).2)).2.log.map ConsEvent.cls = [b, c, a])
      ∧ (getFuel 2 a ((register a [.clsRef b, .clsRef c] ((register c []
          ((register b [] emptyState).2)).2)).2)).1 = .ok 2) := by
  constructor
  · intro a b c hab hac hbc hb hc
    have hstep : (register a [.clsRef b] ((register b [.clsRef c]
        ((register c [] emptyState).2)).2)).2
        = ⟨[(c, ⟨c, [], [], none, none⟩),
            (b, ⟨b, [.clsRef c], [.clsRef c], none, none⟩),
            (a, ⟨a, [.clsRef b], [.clsRef b], none, none⟩)], [], [], 0⟩ := by
      simp [register, classify_eq, emptyState, List.filter_cons, hb, hc,
        hab, hac, hbc, Ne.symm hab, Ne.symm hac, Ne.symm hbc]
    rw [hstep]
    constructor
    · simp [getFuel, resolveLoop, setResolved, pushStack, popStack, construct,
        asCtor, hab, hac, hbc, Ne.symm hab, Ne.symm hac, Ne.symm hbc]
    · simp [getFuel, resolveLoop, setResolved, pushStack, popStack, construct,
        asCtor, hab, hac, hbc, Ne.symm hab, Ne.symm hac, Ne.symm hbc]
  · intro a b c hab hac hbc hb hc
    have hstep : (register a [.clsRef b, .clsRef c] ((register c []
        ((register b [] emptyState).2)).2)).2
        = ⟨[(b, ⟨b, [], [], none, none⟩),
            (c, ⟨c, [], [], none, none⟩),
            (a, ⟨a, [.clsRef b, .clsRef c], [.clsRef b, .clsRef c], none, none⟩)],
            [], [], 0⟩ := by
      simp [register, classify_eq, emptyState, List.filter_cons, hb, hc,
        hab, hac, hbc, Ne.symm hab, Ne.symm hac, Ne.symm hbc]
    rw [hstep]
    constructor
    · simp [getFuel, resolveLoop, setResolved, pushStack, popStack, construct,
        asCtor, hab, hac, hbc, Ne.symm hab, Ne.symm hac, Ne.symm hbc]
    · simp [getFuel, resolveLoop, setResolved, pushStack, popStack, construct,
        asCtor, hab, hac, hbc, Ne.symm hab, Ne.symm hac, Ne.symm hbc]

/-- Witness for C5: the chain and the two-dependency scenarios at the
concrete classes A, B, C. -/
theorem c5_construction_order_witness :
    (((getFuel 3 chainACtor ((register chainACtor [.clsRef chainBCtor]
        ((register chainBCtor [.clsRef chainCCtor]
          ((register chainCCtor [] emptyState).2)).2)).2)).2.log.map ConsEvent.cls
      = [chainCCtor, chainBCtor, chainACtor])
      ∧ (getFuel 3 chainACtor ((register chainACtor [.clsRef chainBCtor]
          ((register chainBCtor [.clsRef chainCCtor]
            ((register chainCCtor [] emptyState).2)).2)).2)).1 = .ok 2)
    ∧ (((getFuel 2 chainACtor ((register chainACtor [.clsRef chainBCtor, .clsRef chainCCtor]
        ((register chainCCtor [] ((register chainBCtor [] emptyState).2)).2)).2)).2.log.map
          ConsEvent.cls = [chainBCtor, chainCCtor, chainACtor])
      ∧ (getFuel 2 chainACtor ((register chainACtor [.clsRef chainBCtor, .clsRef chainCCtor]
          ((register chainCCtor [] ((register chainBCtor [] emptyState).2)).2)).2)).1
        = .ok 2) :=
  ⟨c5_construction_order.1 chainACtor chainBCtor chainCCtor
      (by decide) (by decide) (by decide) rfl rfl,
    c5_construction_order.2 chainACtor chainBCtor chainCCtor
      (by decide) (by decide) (by decide) rfl rfl⟩

/-- C6: a registered class `svc` declaring a dependency on a class `mis`
that was never registered makes `get(svc)` fail with
`MissingDependencyError`, and the rendered message names both the missing
dependency and the requesting singleton. -/
theorem c6_missing_dependency_error (svc mis : Ctor) (hne : svc ≠ mis)
    (hshape : isClassShaped (.clsRef mis) = true) :
    (getFuel 1 svc ((register svc [.clsRef mis] emptyState).2)).1
      = .error (.missingDep mis.name svc.name)
    ∧ errorMessage (.missingDep mis.name svc.name)
      = "Dependency " ++ mis.name ++ " is not registered for singleton " ++ svc.name := by
  constructor
  · have hstep : (register svc [JSValue.clsRef mis] emptyState).2
        = ⟨[(svc, ⟨svc, [.clsRef mis], [.clsRef mis], none, none⟩)], [], [], 0⟩ := by
      unfold register
      rw [classify_eq]
      simp [emptyState, List.filter_cons, hshape]
    rw [hstep]
    simp [getFuel, resolveLoop, setResolved, pushStack, asCtor, hne, Ne.symm hne]
  · rfl

/-- Witness for C6: the `Service` / `Missing` scenario of the spec. -/
theorem c6_missing_dependency_error_witness :
    (getFuel 1 svcCtor ((register svcCtor [.clsRef misCtor] emptyState).2)).1
      = .error (.missingDep "Missing" "Service")
    ∧ errorMessage (.missingDep "Missing" "Service")
      = "Dependency Missing is not registered for singleton Service" :=
  c6_missing_dependency_error svcCtor misCtor (by decide) rfl

end TrueStatic

namespace TrueStatic

/-! ## Registry keys and cached lookups -/

@[simp] theorem pushStack_nextId (s : RegState) (k : Ctor) :
    (pushStack s k).nextId = s.nextId := by
  unfold pushStack; split <;> rfl

@[simp] theorem construct_registry (s : RegState) (k : Ctor) (vals : List RVal) :
    ((construct s k vals).2).registry
      = setEntry s.registry k (fun e => { e with inst := some s.nextId }) := rfl

@[simp] theorem construct_fst (s : RegState) (k : Ctor) (vals : List RVal) :
    (construct s k vals).1 = s.nextId := rfl

theorem setEntry_keys (m : List (Ctor × Entry)) (k : Ctor) (f : Entry → Entry) :
    (setEntry m k f).map Prod.fst = m.map Prod.fst := by
  induction m with
  | nil => rfl
  | cons p rest ih =>
    obtain ⟨k', e'⟩ := p
    by_cases h : k' = k
    · subst h
      rw [setEntry_cons_self]
      simp [ih]
    · rw [setEntry_cons_ne e' rest f h]
      simp [ih]

theorem lookupReg_setEntry_self (m : List (Ctor × Entry)) (j : Ctor)
    (f : Entry → Entry) :
    lookupReg (setEntry m j f) j = (lookupReg m j).map f := by
  induction m with
  | nil => rfl
  | cons p rest ih =>
    obtain ⟨k', e'⟩ := p
    by_cases h : k' = j
    · subst h
      rw [setEntry_cons_self, lookupReg_cons_self, lookupReg_cons_self,
        Option.map_some']
    · rw [setEntry_cons_ne e' rest f h, lookupReg_cons_ne e' (setEntry rest j f) h,
        lookupReg_cons_ne e' rest h, ih]

end TrueStatic

namespace TrueStatic

theorem lookupReg_isSome_congr {m₁ m₂ : List (Ctor × Entry)}
    (h : m₁.map Prod.fst = m₂.map Prod.fst) (k : Ctor) :
    (lookupReg m₁ k).isSome = (lookupReg m₂ k).isSome := by
  induction m₁ generalizing m₂ with
  | nil =>
    cases m₂ with
    | nil => rfl
    | cons q t => simp at h
  | cons p t ih =>
    cases m₂ with
    | nil => simp at h
    | cons q t₂ =>
      obtain ⟨k₁, e₁⟩ := p
      obtain ⟨k₂, e₂⟩ := q
      simp only [List.map_cons, List.cons.injEq] at h
      obtain ⟨h1, h2⟩ := h
      subst h1
      by_cases hk : k₁ = k
      · subst hk
        rw [lookupReg_cons_self, lookupReg_cons_self]
        rfl
      · rw [lookupReg_cons_ne e₁ t hk, lookupReg_cons_ne e₂ t₂ hk]
        exact ih h2

theorem resolveLoop_keys (g : Ctor → RegState → Except RegError Nat × RegState)
    (hg : ∀ c s, (((g c s).2).registry).map Prod.fst = s.registry.map Prod.fst)
    (k : Ctor) (deps : List JSValue) :
    ∀ (args : List JSValue) (acc : List RVal) (s : RegState),
      (((resolveLoop g k deps args acc s).2).registry).map Prod.fst
        = s.registry.map Prod.fst := by
  intro args
  induction args with
  | nil => intro acc s; rfl
  | cons a rest ih =>
    intro acc s
    unfold resolveLoop
    split
    · split
      · next c hac =>
        split
        · split
          · next i s' heq =>
            rw [ih]
            show ((setResolved s' k _).registry).map Prod.fst = _
            unfold setResolved
            rw [setEntry_keys]
            have h2 := hg c s
            rw [heq] at h2
            exact h2
          · next err s' heq =>
            have h2 := hg c s
            rw [heq] at h2
            exact h2
        · rfl
      · next hac =>
        rw [ih]
        show ((setResolved s k _).registry).map Prod.fst = _
        unfold setResolved
        rw [setEntry_keys]
    · rw [ih]
      show ((setResolved s k _).registry).map Prod.fst = _
      unfold setResolved
      rw [setEntry_keys]

theorem getFuel_keys : ∀ (fuel : Nat) (j : Ctor) (s : RegState),
    (((getFuel fuel j s).2).registry).map Prod.fst = s.registry.map Prod.fst := by
  intro fuel
  induction fuel with
  | zero => intro j s; rfl
  | succ n ih =>
    intro j s
    unfold getFuel
    split
    · rfl
    · next e he =>
      split
      · rfl
      · split
        · rfl
        · next hk =>
          split
          · next vals hr =>
            split
            next i s₃ heq =>
              have h3 := congrArg (fun p : Nat × RegState => ((p.2).registry).map Prod.fst) heq
              simp only [construct_registry, setEntry_keys, pushStack_registry] at h3
              rw [popStack_registry, ← h3]
          · next hr =>
            split
            · next vals s₂ heq =>
              split
              next i s₃ heq2 =>
                have h2 := resolveLoop_keys (getFuel n) ih j e.dependencies e.args []
                  (setResolved (pushStack s j) j [])
                rw [heq] at h2
                dsimp only at h2
                unfold setResolved at h2
                rw [setEntry_keys, pushStack_registry] at h2
                have h3 := congrArg (fun p : Nat × RegState => ((p.2).registry).map Prod.fst) heq2
                simp only [construct_registry, setEntry_keys] at h3
                rw [popStack_registry, ← h3]
                exact h2
            · next err s₂ heq =>
              have h2 := resolveLoop_keys (getFuel n) ih j e.dependencies e.args []
                (setResolved (pushStack s j) j [])
              rw [heq] at h2
              dsimp only at h2
              unfold setResolved at h2
              rw [setEntry_keys, pushStack_registry] at h2
              rw [popStack_registry]
              exact h2

end TrueStatic

namespace TrueStatic

theorem getFuel_cached {k : Ctor} {s : RegState} {e : Entry} {i : Nat}
    (he : lookupReg s.registry k = some e) (hi : e.inst = some i) (n : Nat) :
    getFuel (n + 1) k s = (.ok i, s) := by
  unfold getFuel
  rw [he]
  dsimp only
  rw [hi]

theorem getFuel_ok_cached : ∀ (fuel : Nat) (k : Ctor) (s : RegState) (i : Nat)
    (s' : RegState), getFuel fuel k s = (.ok i, s') →
    ∃ e, lookupReg s'.registry k = some e ∧ e.inst = some i := by
  intro fuel k s i s' h
  cases fuel with
  | zero => exact absurd h (by simp [getFuel])
  | succ n =>
    unfold getFuel at h
    cases hl : lookupReg s.registry k with
    | none =>
      rw [hl] at h
      exact absurd h (by simp)
    | some e =>
      rw [hl] at h
      dsimp only at h
      cases hi : e.inst with
      | some i₀ =>
        rw [hi] at h
        dsimp only at h
        simp only [Prod.mk.injEq, Except.ok.injEq] at h
        obtain ⟨hii, hss⟩ := h
        refine ⟨e, ?_, ?_⟩
        · rw [← hss]
          exact hl
        · rw [hi, hii]
      | none =>
        rw [hi] at h
        dsimp only at h
        by_cases hk : k ∈ s.stack
        · rw [if_pos hk] at h
          exact absurd h (by simp)
        · rw [if_neg hk] at h
          cases hr : e.resolvedArgs with
          | some vals =>
            rw [hr] at h
            dsimp only at h
            cases hc : construct (pushStack s k) k vals with
            | mk i₂ s₃ =>
              rw [hc] at h
              dsimp only at h
              simp only [Prod.mk.injEq, Except.ok.injEq] at h
              obtain ⟨hii, hss⟩ := h
              have hreg : s₃.registry
                  = setEntry s.registry k (fun e => { e with inst := some s.nextId }) := by
                have h3 := congrArg (fun p : Nat × RegState => (p.2).registry) hc
                simp only [construct_registry, pushStack_registry, pushStack_nextId] at h3
                exact h3.symm
              have hi₂ : i₂ = s.nextId := by
                have h4 := congrArg Prod.fst hc
                simp only [construct_fst, pushStack_nextId] at h4
                exact h4.symm
              refine ⟨{ e with inst := some s.nextId }, ?_, ?_⟩
              · rw [← hss, popStack_registry, hreg, lookupReg_setEntry_self, hl,
                  Option.map_some']
              · rw [← hii, hi₂]
          | none =>
            rw [hr] at h
            dsimp only at h
            cases hrl : resolveLoop (getFuel n) k e.dependencies e.args []
                (setResolved (pushStack s k) k []) with
            | mk r s₂ =>
              rw [hrl] at h
              cases r with
              | error err =>
                dsimp only at h
                exact absurd h (by simp)
              | ok vals =>
                dsimp only at h
                cases hc : construct s₂ k vals with
                | mk i₂ s₃ =>
                  rw [hc] at h
                  dsimp only at h
                  simp only [Prod.mk.injEq, Except.ok.injEq] at h
                  obtain ⟨hii, hss⟩ := h
                  have hkeys : s₂.registry.map Prod.fst = s.registry.map Prod.fst := by
                    have h5 := resolveLoop_keys (getFuel n) (getFuel_keys n) k
                      e.dependencies e.args [] (setResolved (pushStack s k) k [])
                    rw [hrl] at h5
                    dsimp only at h5
                    unfold setResolved at h5
                    rw [setEntry_keys, pushStack_registry] at h5
                    exact h5
                  have hsome : (lookupReg s₂.registry k).isSome = true := by
                    rw [lookupReg_isSome_congr hkeys k, hl]
                    rfl
                  obtain ⟨e₂, he₂⟩ := Option.isSome_iff_exists.mp hsome
                  have hreg : s₃.registry
                      = setEntry s₂.registry k (fun e => { e with inst := some s₂.nextId }) := by
                    have h3 := congrArg (fun p : Nat × RegState => (p.2).registry) hc
                    simp only [construct_registry] at h3
                    exact h3.symm
                  have hi₂ : i₂ = s₂.nextId := by
                    have h4 := congrArg Prod.fst hc
                    simp only [construct_fst] at h4
                    exact h4.symm
                  refine ⟨{ e₂ with inst := some s₂.nextId }, ?_, ?_⟩
                  · rw [← hss, popStack_registry, hreg, lookupReg_setEntry_self, he₂,
                      Option.map_some']
                  · rw [← hii, hi₂]

end TrueStatic

namespace TrueStatic

/-! ## Counting constructor invocations -/

@[simp] theorem logCount_nil (c : Ctor) : logCount c [] = 0 := rfl

theorem logCount_append (c : Ctor) (l₁ l₂ : List ConsEvent) :
    logCount c (l₁ ++ l₂) = logCount c l₁ + logCount c l₂ := by
  simp [logCount, List.filter_append]

theorem logCount_single_ne {j c : Ctor} (h : j ≠ c) (i : Nat) (v : List RVal) :
    logCount c [⟨j, i, v⟩] = 0 := by
  simp [logCount, h]

theorem logCount_single_self (c : Ctor) (i : Nat) (v : List RVal) :
    logCount c [⟨c, i, v⟩] = 1 := by
  simp [logCount]

theorem resolveLoop_logCount (g : Ctor → RegState → Except RegError Nat × RegState)
    (hgs : ∀ j s, ((g j s).2).stack = s.stack)
    (hgl : ∀ j s c, c ∈ s.stack → logCount c ((g j s).2).log = logCount c s.log)
    (k : Ctor) (deps : List JSValue) :
    ∀ (args : List JSValue) (acc : List RVal) (s : RegState) (c : Ctor),
      c ∈ s.stack →
      logCount c ((resolveLoop g k deps args acc s).2).log = logCount c s.log := by
  intro args
  induction args with
  | nil => intro acc s c hc; rfl
  | cons a rest ih =>
    intro acc s c hc
    unfold resolveLoop
    split
    · split
      · next c2 hac =>
        split
        · split
          · next i s' heq =>
            have hstack : s'.stack = s.stack := by
              have h2 := hgs c2 s
              rw [heq] at h2
              exact h2
            have hlog : logCount c s'.log = logCount c s.log := by
              have h2 := hgl c2 s c hc
              rw [heq] at h2
              exact h2
            have hmem : c ∈ (setResolved s' k (acc ++ [RVal.instRef i])).stack := by
              rw [setResolved_stack, hstack]
              exact hc
            rw [ih _ _ c hmem, setResolved_log, hlog]
          · next err s' heq =>
            have h2 := hgl c2 s c hc
            rw [heq] at h2
            exact h2
        · rfl
      · next hac =>
        have hmem : c ∈ (setResolved s k (acc ++ [RVal.lit a])).stack := by
          rw [setResolved_stack]
          exact hc
        rw [ih _ _ c hmem, setResolved_log]
    · have hmem : c ∈ (setResolved s k (acc ++ [RVal.lit a])).stack := by
        rw [setResolved_stack]
        exact hc
      rw [ih _ _ c hmem, setResolved_log]

theorem getFuel_logCount_stacked : ∀ (fuel : Nat) (j : Ctor) (s : RegState)
    (c : Ctor), c ∈ s.stack →
    logCount c ((getFuel fuel j s).2).log = logCount c s.log := by
  intro fuel
  induction fuel with
  | zero => intro j s c hc; rfl
  | succ n ih =>
    intro j s c hc
    unfold getFuel
    split
    · rfl
    · next e he =>
      split
      · rfl
      · split
        · rfl
        · next hk =>
          have hjc : j ≠ c := fun hh => hk (hh ▸ hc)
          split
          · next vals hr =>
            split
            next i s₃ heq =>
              have h3 := congrArg (fun p : Nat × RegState => (p.2).log) heq
              simp only [construct_log, pushStack_log] at h3
              rw [popStack_log, ← h3, logCount_append, logCount_single_ne hjc]
              omega
          · next hr =>
            split
            · next vals s₂ heq =>
              split
              next i s₃ heq2 =>
                have hmem : c ∈ (setResolved (pushStack s j) j []).stack := by
                  rw [setResolved_stack, pushStack_stack_of_not_mem hk]
                  exact List.mem_append_left _ hc
                have hrl := resolveLoop_logCount (getFuel n) (getFuel_stack n) ih j
                  e.dependencies e.args [] (setResolved (pushStack s j) j []) c hmem
                rw [heq] at hrl
                dsimp only at hrl
                rw [setResolved_log, pushStack_log] at hrl
                have h3 := congrArg (fun p : Nat × RegState => (p.2).log) heq2
                simp only [construct_log] at h3
                rw [popStack_log, ← h3, logCount_append, logCount_single_ne hjc, hrl]
                omega
            · next err s₂ heq =>
              have hmem : c ∈ (setResolved (pushStack s j) j []).stack := by
                rw [setResolved_stack, pushStack_stack_of_not_mem hk]
                exact List.mem_append_left _ hc
              have hrl := resolveLoop_logCount (getFuel n) (getFuel_stack n) ih j
                e.dependencies e.args [] (setResolved (pushStack s j) j []) c hmem
              rw [heq] at hrl
              dsimp only at hrl
              rw [setResolved_log, pushStack_log] at hrl
              rw [popStack_log, hrl]

end TrueStatic

namespace TrueStatic

theorem getFuel_first_success_logCount : ∀ (fuel : Nat) (k : Ctor) (s : RegState)
    (e : Entry) (i : Nat) (s' : RegState),
    lookupReg s.registry k = some e → e.inst = none → k ∉ s.stack →
    getFuel fuel k s = (.ok i, s') →
    logCount k s'.log = logCount k s.log + 1 := by
  intro fuel k s e i s' he hi hk h
  cases fuel with
  | zero => exact absurd h (by simp [getFuel])
  | succ n =>
    unfold getFuel at h
    rw [he] at h
    dsimp only at h
    rw [hi] at h
    dsimp only at h
    rw [if_neg hk] at h
    cases hr : e.resolvedArgs with
    | some vals =>
      rw [hr] at h
      dsimp only at h
      cases hc : construct (pushStack s k) k vals with
      | mk i₂ s₃ =>
        rw [hc] at h
        dsimp only at h
        simp only [Prod.mk.injEq, Except.ok.injEq] at h
        obtain ⟨hii, hss⟩ := h
        have h3 := congrArg (fun p : Nat × RegState => (p.2).log) hc
        simp only [construct_log, pushStack_log] at h3
        rw [← hss, popStack_log, ← h3, logCount_append, logCount_single_self]
    | none =>
      rw [hr] at h
      dsimp only at h
      cases hrl : resolveLoop (getFuel n) k e.dependencies e.args []
          (setResolved (pushStack s k) k []) with
      | mk r s₂ =>
        rw [hrl] at h
        cases r with
        | error err =>
          dsimp only at h
          exact absurd h (by simp)
        | ok vals =>
          dsimp only at h
          cases hc : construct s₂ k vals with
          | mk i₂ s₃ =>
            rw [hc] at h
            dsimp only at h
            simp only [Prod.mk.injEq, Except.ok.injEq] at h
            obtain ⟨hii, hss⟩ := h
            have hmem : k ∈ (setResolved (pushStack s k) k []).stack := by
              rw [setResolved_stack, pushStack_stack_of_not_mem hk]
              exact List.mem_append_right _ (by simp)
            have hrl2 := resolveLoop_logCount (getFuel n) (getFuel_stack n)
              (getFuel_logCount_stacked n) k e.dependencies e.args []
              (setResolved (pushStack s k) k []) k hmem
            rw [hrl] at hrl2
            dsimp only at hrl2
            rw [setResolved_log, pushStack_log] at hrl2
            have h3 := congrArg (fun p : Nat × RegState => (p.2).log) hc
            simp only [construct_log] at h3
            rw [← hss, popStack_log, ← h3, logCount_append, logCount_single_self, hrl2]

/-- C3: `register` performs no construction (the construction log and the
allocation counter are untouched — first conjunct); after any successful
`get(k)` returning instance i, an immediately repeated `get(k)` returns the
reference-identical instance i and leaves the state exactly unchanged, so
the cached instance is never replaced (second conjunct); and a successful
top-level `get(k)` on a record with no cached instance invokes k's
constructor exactly once (third conjunct). -/
theorem c3_construct_once :
    (∀ (k : Ctor) (args : List JSValue) (s : RegState),
      ((register k args s).2).log = s.log
      ∧ ((register k args s).2).nextId = s.nextId)
    ∧ (∀ (fuel n : Nat) (k : Ctor) (s : RegState) (i : Nat) (s' : RegState),
      getFuel fuel k s = (.ok i, s') → getFuel (n + 1) k s' = (.ok i, s'))
    ∧ (∀ (fuel : Nat) (k : Ctor) (s : RegState) (e : Entry) (i : Nat) (s' : RegState),
      lookupReg s.registry k = some e → e.inst = none → k ∉ s.stack →
      getFuel fuel k s = (.ok i, s') →
      logCount k s'.log = logCount k s.log + 1) := by
  refine ⟨?_, ?_, ?_⟩
  · intro k args s
    unfold register
    split
    · exact ⟨rfl, rfl⟩
    · rw [classify_eq]
      exact ⟨rfl, rfl⟩
  · intro fuel n k s i s' h
    obtain ⟨e, he, hi⟩ := getFuel_ok_cached fuel k s i s' h
    exact getFuel_cached he hi n
  · intro fuel k s e i s' he hi hk h
    exact getFuel_first_success_logCount fuel k s e i s' he hi hk h

/-- Witness for C3: registration of `NoArgsService` constructs nothing; the
first get constructs it (instance id 0, log count 1), the second get
returns id 0 with the state unchanged. -/
theorem c3_construct_once_witness :
    (((register noArgsCtor [] emptyState).2).log = emptyState.log
      ∧ ((register noArgsCtor [] emptyState).2).nextId = emptyState.nextId)
    ∧ getFuel 1 noArgsCtor ((getFuel 1 noArgsCtor noArgState).2)
        = (.ok 0, (getFuel 1 noArgsCtor noArgState).2)
    ∧ logCount noArgsCtor ((getFuel 1 noArgsCtor noArgState).2).log
        = logCount noArgsCtor noArgState.log + 1 :=
  ⟨c3_construct_once.1 noArgsCtor [] emptyState,
    c3_construct_once.2.1 1 0 noArgsCtor noArgState 0
      ((getFuel 1 noArgsCtor noArgState).2) rfl,
    c3_construct_once.2.2 1 noArgsCtor noArgState ⟨noArgsCtor, [], [], none, none⟩ 0
      ((getFuel 1 noArgsCtor noArgState).2) rfl rfl (by decide) rfl⟩

end TrueStatic

namespace TrueStatic

theorem lookupName_setName (m : List (String × Ctor)) (n : String) (k : Ctor) :
    lookupName (setName m n k) n = some k := by
  induction m with
  | nil => simp [setName, lookupName]
  | cons p rest ih =>
    obtain ⟨n', c⟩ := p
    by_cases h : n' = n
    · subst h
      simp [setName, lookupName]
    · simp [setName, lookupName, h, ih]

/-- C10: `clear()` wipes the core registry but not the global
name → constructor map: after `registerGlobalSingleton(name, k, ...)`
followed by `clear()`, a property read of `name` on the global accessor
still finds the mapped constructor, delegates to `get`, and therefore
yields `NotRegisteredError` naming k — not the `undefined` result that
unmapped names get. -/
theorem c10_clear_keeps_name_map (w : World) (name : String) (k : Ctor)
    (args : List JSValue) (n : Nat) (h : isRegistered w.rs k = false) :
    (proxyGet (n + 1) (clearWorld ((registerGlobalSingleton name k args w).2)) name).1
      = some (.error (.notRegistered k.name))
    ∧ (proxyGet (n + 1) (clearWorld ((registerGlobalSingleton name k args w).2)) name).1
      ≠ none := by
  have hn := lookupReg_eq_none_of_not_registered h
  obtain ⟨rs', hok⟩ : ∃ rs', register k args w.rs = (.ok (), rs') := by
    unfold register
    rw [hn, classify_eq]
    exact ⟨_, rfl⟩
  have h2 : (registerGlobalSingleton name k args w).2
      = ⟨rs', setName w.cmap name k⟩ := by
    unfold registerGlobalSingleton
    rw [hok]
  rw [h2]
  have h3 : clearWorld (⟨rs', setName w.cmap name k⟩ : World)
      = ⟨clearReg rs', setName w.cmap name k⟩ := rfl
  rw [h3]
  have hg : getFuel (n + 1) k (clearReg rs')
      = (.error (.notRegistered k.name), clearReg rs') := by
    unfold getFuel
    rfl
  unfold proxyGet
  rw [lookupName_setName]
  dsimp only
  rw [hg]
  exact ⟨rfl, by simp⟩

/-- Witness for C10: the `TestService` global registration, cleared, still
resolves the name to the constructor and fails with NotRegisteredError. -/
theorem c10_clear_keeps_name_map_witness :
    (proxyGet 1 (clearWorld ((registerGlobalSingleton "TestService" testCtor
        [.prim "env-test"] emptyWorld).2)) "TestService").1
      = some (.error (.notRegistered "TestService"))
    ∧ (proxyGet 1 (clearWorld ((registerGlobalSingleton "TestService" testCtor
        [.prim "env-test"] emptyWorld).2)) "TestService").1 ≠ none :=
  c10_clear_keeps_name_map emptyWorld "TestService" testCtor [.prim "env-test"] 0 rfl

end TrueStatic
